import Mathlib

/-!
Verification of the financegpt market-data cache server (`src/app.py`).

The Python source is shallowly embedded: each cache section's dictionary is an
association list from ticker key to record, kept key-unique by construction;
Python `dict[k] = v` becomes `dictInsert`, `dict.get`/`in` becomes `dictGet`,
and the partial-update loops of the refresh tasks become `dictMerge`.
Python floats are idealized as rationals, `round(x, 2)` as `pyRound2`
(floor-based round-half-up; the claims under proof do not depend on the
tie-breaking direction of `round`), and `str.upper()` as `pyUpper` over
`Char.toUpper`.
-/

namespace FinanceGPT

/-- Python `d[k] = v` on a dict represented as an association list:
replace the value at the first occurrence of `k`, or append `(k, v)`. -/
def dictInsert {V : Type} : List (String × V) → String → V → List (String × V)
  | [], k, v => [(k, v)]
  | p :: d, k, v => if p.1 = k then (k, v) :: d else p :: dictInsert d k v

/-- Python `d.get(k)` / `k in d`: the value at the first occurrence of `k`. -/
def dictGet {V : Type} : List (String × V) → String → Option V
  | [], _ => none
  | p :: d, k => if p.1 = k then some p.2 else dictGet d k

/-- The keys of a dict. -/
def dictKeys {V : Type} (d : List (String × V)) : List String := d.map Prod.fst

/-- Python `for k, v in u.items(): d[k] = v` — the partial-update loop used by
`update_stats_periodically` and `update_nasdaq_bse_periodically` in `app.py`. -/
def dictMerge {V : Type} (d u : List (String × V)) : List (String × V) :=
  u.foldl (fun acc p => dictInsert acc p.1 p.2) d

/-- Python `str.upper()` (ASCII case mapping, as in `Char.toUpper`). -/
def pyUpper (s : String) : String := String.mk (s.data.map Char.toUpper)

/-- State of one `CacheSection` while a single merge (the `async with lock`
block of a refresh task) runs: the section's dict, whether the merge task
holds the section's `asyncio.Lock`, and the update items not yet written. -/
structure MState (V : Type) where
  data : List (String × V)
  lockHeld : Bool
  pending : List (String × V)

/-- Interleaving semantics of one merge against the section's lock:
the merge task acquires the lock, writes its update items one dict
assignment at a time while holding it, and releases it when done.
A snapshot read (`dict(section.data)` under the same lock) can only
observe `data` in states where the merge task does not hold the lock. -/
inductive MergeStep {V : Type} : MState V → MState V → Prop where
  | acquire (d u : List (String × V)) :
      MergeStep ⟨d, false, u⟩ ⟨d, true, u⟩
  | writeKey (d : List (String × V)) (k : String) (v : V) (u : List (String × V)) :
      MergeStep ⟨d, true, (k, v) :: u⟩ ⟨dictInsert d k v, true, u⟩
  | release (d : List (String × V)) :
      MergeStep ⟨d, true, []⟩ ⟨d, false, []⟩

/-- A numeric field of a quote record that may instead hold the Python
string sentinel `'N/A'`. -/
inductive Field where
  | num (q : ℚ)
  | na
deriving DecidableEq

/-- The fields read from `stock.info` by the two fetchers; `none` models a
key absent from the provider's info dict. -/
structure Info where
  shortName : Option String
  longName : Option String
  currency : Option String
  marketCap : Option ℚ
  regularMarketVolume : Option ℚ
  averageVolume : Option ℚ
  trailingPE : Option ℚ
  week52Change : Option ℚ
deriving DecidableEq

/-- Python `round(x, 2)` idealized over rationals (round-half-up; none of
the verified statements depend on the tie-breaking direction). -/
def pyRound2 (q : ℚ) : ℚ := (⌊q * 100 + 1 / 2⌋ : ℚ) / 100

/-- The pattern `round(f(info.get(key, 0)), 2) if info.get(key) else 'N/A'`
used for the scaled fields of a quote record: Python truthiness makes both a
missing key and a zero value yield the `'N/A'` sentinel. -/
def scaledField (x : Option ℚ) (f : ℚ → ℚ) : Field :=
  match x with
  | none => Field.na
  | some v => if v = 0 then Field.na else Field.num (pyRound2 (f v))

/-- The quote record built by `fetch_bulk_stock_data_sync` for one ticker. -/
structure QuoteRec where
  symbol : String
  name : String
  price : ℚ
  change : ℚ
  changePercent : ℚ
  volumeM : Field
  avgVolumeM : Field
  marketCapB : Field
  peRatio : Field
  week52ChangePct : Field
deriving DecidableEq

/-- The record construction of `fetch_bulk_stock_data_sync` (src/app.py
lines 106-145); `hist` lists the (Open, Close) rows of `history(period="1d")`
and the record is built from its last row. -/
def mkQuoteRecord (ticker : String) (info : Info) (hist : List (ℚ × ℚ)) : QuoteRec :=
  let close_price := (hist.getLastD (0, 0)).2
  let open_price := (hist.getLastD (0, 0)).1
  let change := pyRound2 (close_price - open_price)
  { symbol := pyUpper ticker
    name := info.shortName.getD "N/A"
    price := pyRound2 close_price
    change := change
    changePercent := if open_price ≠ 0 then pyRound2 (change / open_price * 100) else 0
    volumeM := scaledField info.regularMarketVolume (fun v => v / 1000000)
    avgVolumeM := scaledField info.averageVolume (fun v => v / 1000000)
    marketCapB := scaledField info.marketCap (fun v => v / 1000000000)
    peRatio := scaledField info.trailingPE (fun v => v)
    week52ChangePct := scaledField info.week52Change (fun v => v * 100) }

/-- What the provider yields for one ticker inside a bulk-fetch call:
`missing` models `data.tickers.get(ticker)` returning `None`, `raises`
models an exception thrown while processing the ticker (which escapes the
per-ticker loop to the call-level handler), and `ok` carries the info dict
and the price history rows. -/
inductive TOutcome where
  | missing
  | raises
  | ok (info : Info) (hist : List (ℚ × ℚ))
deriving DecidableEq

/-- The upstream world seen by one `fetch_bulk_stock_data_sync` call:
`wholeFails` models `yf.Tickers(...)` itself raising. -/
structure FetchEnv where
  wholeFails : Bool
  outcome : String → TOutcome

/-- The per-ticker loop of `fetch_bulk_stock_data_sync`. An exception during
one ticker aborts the loop and the surrounding handler returns the entries
accumulated so far. -/
def fetchBulkLoop (env : String → TOutcome) :
    List String → List (String × QuoteRec) → List (String × QuoteRec)
  | [], acc => acc
  | t :: ts, acc =>
    match env t with
    | TOutcome.missing => fetchBulkLoop env ts acc
    | TOutcome.raises => acc
    | TOutcome.ok info hist =>
      if hist = [] then fetchBulkLoop env ts acc
      else fetchBulkLoop env ts (dictInsert acc (pyUpper t) (mkQuoteRecord t info hist))

/-- `fetch_bulk_stock_data_sync` (src/app.py lines 82-148): the whole body
sits in `try ... except`, so a failing `yf.Tickers` call returns the empty
dict rather than raising. -/
def fetch_bulk_stock_data_sync (env : FetchEnv) (tickers : List String) :
    List (String × QuoteRec) :=
  if env.wholeFails then [] else fetchBulkLoop env.outcome tickers []

/-- The stat record built by `fetch_stats_data_sync` for one ticker. -/
structure StatsRec where
  ticker : String
  company_name : String
  current_price : ℚ
  currency : String
  percentage_change : String
  change : String
deriving DecidableEq

/-- The digits of `f"{q:.2f}"`: the magnitude with two fractional digits. -/
def fmt2core (q : ℚ) : String :=
  let n : ℕ := (⌊|q| * 100 + 1 / 2⌋).toNat
  let fracStr := if n % 100 < 10 then "0" ++ Nat.repr (n % 100) else Nat.repr (n % 100)
  Nat.repr (n / 100) ++ "." ++ fracStr

/-- Python `f"{q:.2f}"`: two fractional digits, with a minus sign exactly
when the formatted value is negative (as float formatting does, including
`-0.00`). Ties are idealized as round-half-up. -/
def fmt2 (q : ℚ) : String := (if q < 0 then "-" else "") ++ fmt2core q

/-- The day-over-day percent change of `fetch_stats_data_sync`:
`Close.iloc[-1]` against `Close.iloc[-2]`, and `0` when the prior close is
zero. -/
def pctChange (closes : List ℚ) : ℚ :=
  let current_price := closes.getLastD 0
  let yesterday_price := closes.dropLast.getLastD 0
  if yesterday_price ≠ 0 then (current_price - yesterday_price) / yesterday_price * 100 else 0

/-- The record construction of `fetch_stats_data_sync` (src/app.py lines
174-199): percent change classified by sign into `positive` / `negative` /
`same` with the formatted display string. -/
def mkStatsRecord (ticker : String) (info : Info) (closes : List ℚ) : StatsRec :=
  let pc := pctChange closes
  { ticker := pyUpper ticker
    company_name := info.longName.getD "N/A"
    current_price := closes.getLastD 0
    currency := info.currency.getD "N/A"
    percentage_change := if 0 < pc then "+" ++ fmt2 pc ++ "%" else fmt2 pc ++ "%"
    change := if 0 < pc then "positive" else if pc < 0 then "negative" else "same" }

/-- Provider outcome for one ticker of a `fetch_stats_data_sync` call;
`closes` lists the Close column of `history(period="5d")`. -/
inductive SOutcome where
  | missing
  | raises
  | ok (info : Info) (closes : List ℚ)
deriving DecidableEq

/-- The upstream world seen by one `fetch_stats_data_sync` call. -/
structure StatsEnv where
  wholeFails : Bool
  outcome : String → SOutcome

/-- The per-ticker loop of `fetch_stats_data_sync`: tickers with fewer than
two history rows are skipped; an exception during one ticker aborts the
loop. -/
def fetchStatsLoop (env : String → SOutcome) :
    List String → List (String × StatsRec) → List (String × StatsRec)
  | [], acc => acc
  | t :: ts, acc =>
    match env t with
    | SOutcome.missing => fetchStatsLoop env ts acc
    | SOutcome.raises => acc
    | SOutcome.ok info closes =>
      if closes.length < 2 then fetchStatsLoop env ts acc
      else fetchStatsLoop env ts (dictInsert acc (pyUpper t) (mkStatsRecord t info closes))

/-- `fetch_stats_data_sync` (src/app.py lines 150-202). -/
def fetch_stats_data_sync (env : StatsEnv) (ticker_list : List String) :
    List (String × StatsRec) :=
  if env.wholeFails then [] else fetchStatsLoop env.outcome ticker_list []

/-- `NASDAQ_TOP_50` from src/app.py. -/
def NASDAQ_TOP_50 : List String := [
  "AAPL", "MSFT", "AMZN", "GOOG", "GOOGL", "NVDA", "TSLA", "META", "PEP", "AVGO",
  "COST", "CSCO", "ADBE", "TXN", "CMCSA", "NFLX", "AMD", "INTC", "QCOM", "HON",
  "AMGN", "ORLY", "GILD", "MDLZ", "ADP", "PYPL", "ISRG", "REGN", "ADI", "SBUX",
  "MU", "LRCX", "VRTX", "BKNG", "ACN", "KDP", "MAR", "CDNS", "MNST", "CTAS",
  "TEAM", "PANW", "XEL", "MRNA", "AEP", "FAST", "EXC", "SNPS", "DXCM", "FTNT"]

/-- `BSE_TOP_50` from src/app.py. -/
def BSE_TOP_50 : List String := [
  "RELIANCE.BO", "TCS.BO", "HDFCBANK.BO", "INFY.BO", "MRF.NS", "ICICIBANK.BO",
  "HINDUNILVR.BO", "ITC.BO", "KOTAKBANK.BO", "BAJFINANCE.BO", "SBIN.BO",
  "BHARTIARTL.BO", "ASIANPAINT.BO", "MARUTI.BO", "DMART.BO", "WIPRO.BO",
  "ADANIGREEN.BO", "LT.BO", "SUNPHARMA.BO", "TECHM.BO", "ULTRACEMCO.BO",
  "NTPC.BO", "POWERGRID.BO", "TITAN.BO", "ONGC.BO", "M&M.BO", "JSWSTEEL.BO",
  "BAJAJFINSV.BO", "HCLTECH.BO", "GRASIM.BO", "COALINDIA.BO", "HEROMOTOCO.BO",
  "SBILIFE.BO", "ADANIPORTS.BO", "EICHERMOT.BO", "DRREDDY.BO", "BPCL.BO",
  "HDFCLIFE.BO", "DABUR.BO", "BRITANNIA.BO", "DIVISLAB.BO", "VEDL.BO",
  "ICICIPRULI.BO", "GODREJCP.BO", "SHREECEM.BO", "PIDILITIND.BO",
  "TATAMOTORS.BO", "INDUSINDBK.BO", "APOLLOHOSP.BO", "CIPLA.BO"]

/-- `PREDEFINED_STATS_TICKERS` from src/app.py. -/
def PREDEFINED_STATS_TICKERS : List String :=
  ["AAPL", "MSFT", "GOOG", "RELIANCE.NS", "ADANIENT.NS", "TATAMOTORS.NS"]

/-- One cycle of `update_stats_periodically` (src/app.py lines 230-244):
fetch, then merge under the lock only when the result is non-empty
(Python `if new_stats:`), else leave the section unchanged. -/
def update_stats_cycle (env : StatsEnv) (d : List (String × StatsRec)) :
    List (String × StatsRec) :=
  let new_stats := fetch_stats_data_sync env PREDEFINED_STATS_TICKERS
  if new_stats.isEmpty then d else dictMerge d new_stats

/-- The scheduling loop of `update_stats_periodically`: one cycle per
element of `envs`; every cycle runs regardless of earlier cycles' fetch
outcomes, since the cycle body never raises. -/
def update_stats_run (envs : List StatsEnv) (d : List (String × StatsRec)) :
    List (String × StatsRec) :=
  envs.foldl (fun d e => update_stats_cycle e d) d

/-- The two sections mutated by `update_nasdaq_bse_periodically`. -/
structure NBState where
  nasdaq_top50 : List (String × QuoteRec)
  bse_top50 : List (String × QuoteRec)
deriving DecidableEq

/-- One cycle of `update_nasdaq_bse_periodically` (src/app.py lines
252-278): the single task body updates the NASDAQ section and then the BSE
section, each merged only when its own fetch result is non-empty. -/
def update_nasdaq_bse_cycle (envN envB : FetchEnv) (s : NBState) : NBState :=
  let new_nasdaq := fetch_bulk_stock_data_sync envN NASDAQ_TOP_50
  let s1 := if new_nasdaq.isEmpty then s
            else { s with nasdaq_top50 := dictMerge s.nasdaq_top50 new_nasdaq }
  let new_bse := fetch_bulk_stock_data_sync envB BSE_TOP_50
  if new_bse.isEmpty then s1
  else { s1 with bse_top50 := dictMerge s1.bse_top50 new_bse }

/-- The three named cache sections created by `Cache.__init__`. -/
inductive SectionId where
  | stats
  | nasdaq_top50
  | bse_top50
deriving DecidableEq

/-- A background refresh task: the sections its loop body mutates and its
sleep interval in seconds. -/
structure RefreshTask where
  sections : List SectionId
  interval_seconds : ℕ
deriving DecidableEq

/-- `update_stats_periodically`: mutates only the stats section, every 10 s. -/
def update_stats_task : RefreshTask := ⟨[SectionId.stats], 10⟩

/-- `update_nasdaq_bse_periodically`: one task body mutating both the
NASDAQ and the BSE section in sequence, every 30 s. -/
def update_nasdaq_bse_task : RefreshTask :=
  ⟨[SectionId.nasdaq_top50, SectionId.bse_top50], 30⟩

/-- The tasks created by `startup_event` (src/app.py lines 283-289). -/
def startup_event_tasks : List RefreshTask :=
  [update_stats_task, update_nasdaq_bse_task]

/-- The three sections of the process-wide `Cache`, generic in the record
type (the endpoints only inspect keys). -/
structure CacheState (V : Type) where
  stats : List (String × V)
  nasdaq_top50 : List (String × V)
  bse_top50 : List (String × V)

/-- The cache at process start: all sections empty. -/
def emptyCache (V : Type) : CacheState V := ⟨[], [], []⟩

/-- The only exception the embedded endpoint bodies raise:
`fastapi.HTTPException`, a subclass of Python's `Exception`. -/
inductive PyExc where
  | httpException (status : ℕ) (detail : String)
deriving DecidableEq

/-- starlette's `HTTPException.__str__`: `"{status_code}: {detail}"`. -/
def excStr : PyExc → String
  | PyExc.httpException status detail => Nat.repr status ++ ": " ++ detail

/-- The HTTP outcome of an endpoint call. -/
inductive HttpResp (V : Type) where
  | ok (v : V)
  | err (status : ℕ) (detail : String)
deriving DecidableEq

/-- The `try` body of `get_price_endpoint` (src/app.py lines 311-331):
uppercase the ticker, snapshot and probe the NASDAQ, BSE and stats sections
in that order, and raise `HTTPException(404)` when no section matches. -/
def get_price_try_body {V : Type} (c : CacheState V) (ticker : String) : Except PyExc V :=
  let t := pyUpper ticker
  match dictGet c.nasdaq_top50 t with
  | some r => Except.ok r
  | none =>
    match dictGet c.bse_top50 t with
    | some r => Except.ok r
    | none =>
      match dictGet c.stats t with
      | some r => Except.ok r
      | none => Except.error (PyExc.httpException 404 ("Ticker " ++ t ++ " not found."))

/-- `get_price_endpoint` (src/app.py lines 305-333): the body runs inside
`try ... except Exception as e: raise HTTPException(500, str(e))`, and the
`except` clause also catches the body's own `HTTPException(404)`. -/
def get_price_endpoint {V : Type} (c : CacheState V) (ticker : String) : HttpResp V :=
  match get_price_try_body c ticker with
  | Except.ok r => HttpResp.ok r
  | Except.error e => HttpResp.err 500 (excStr e)

/-- One `for t in tickers: if t in data: prices.append(data[t])` pass of
`get_multiple_prices_endpoint` over one section's snapshot. -/
def sectionMatches {V : Type} (data : List (String × V)) (tickers : List String)
    (acc : List V) : List V :=
  tickers.foldl (fun acc t =>
    match dictGet data t with
    | some r => acc ++ [r]
    | none => acc) acc

/-- The `try` body of `get_multiple_prices_endpoint` (src/app.py lines
341-369): uppercase every ticker, collect matches from the NASDAQ, BSE and
stats snapshots in that order, and raise `HTTPException(404)` when nothing
matched. -/
def get_multiple_prices_try_body {V : Type} (c : CacheState V)
    (ticker_list : List String) : Except PyExc (List V) :=
  let tickers := ticker_list.map pyUpper
  let prices := sectionMatches c.nasdaq_top50 tickers []
  let prices := sectionMatches c.bse_top50 tickers prices
  let prices := sectionMatches c.stats tickers prices
  if prices.isEmpty then Except.error (PyExc.httpException 404 "No valid tickers found.")
  else Except.ok prices

/-- `get_multiple_prices_endpoint` (src/app.py lines 335-371); as with
`get_price_endpoint`, the blanket `except Exception` also catches the
body's `HTTPException(404)`. -/
def get_multiple_prices_endpoint {V : Type} (c : CacheState V)
    (ticker_list : List String) : HttpResp (List V) :=
  match get_multiple_prices_try_body c ticker_list with
  | Except.ok r => HttpResp.ok r
  | Except.error e => HttpResp.err 500 (excStr e)

/-- Concrete world: the upstream is unreachable for a bulk-fetch call. -/
def bulkFailEnv : FetchEnv := ⟨true, fun _ => TOutcome.missing⟩

/-- Concrete world: the upstream is unreachable for a stats-fetch call. -/
def statsFailEnv : StatsEnv := ⟨true, fun _ => SOutcome.missing⟩

/-- A concrete provider info dict with every field present and non-zero. -/
def sampleInfo : Info :=
  ⟨some "Apple Inc.", some "Apple Inc.", some "USD", some 3000000000000,
   some 50000000, some 60000000, some 30, some (1 / 4)⟩

/-- One (Open, Close) history row. -/
def sampleHist : List (ℚ × ℚ) := [(100, 110)]

/-- Two sessions of closes. -/
def sampleCloses : List ℚ := [100, 110]

/-- Concrete world: ticker `XX` raises during its processing, every other
ticker resolves. -/
def abortEnv : FetchEnv :=
  ⟨false, fun t => if t = "XX" then TOutcome.raises else TOutcome.ok sampleInfo sampleHist⟩

/-- Concrete world: every ticker of a bulk-fetch call resolves. -/
def quoteEnv : FetchEnv := ⟨false, fun _ => TOutcome.ok sampleInfo sampleHist⟩

/-- Concrete world: every ticker of a stats-fetch call resolves with two
sessions of history. -/
def statsOkEnv : StatsEnv := ⟨false, fun _ => SOutcome.ok sampleInfo sampleCloses⟩

/-- A concrete stat record. -/
def sampleStatsRec : StatsRec := mkStatsRecord "AAPL" sampleInfo sampleCloses

/-- A concrete cache holding the key `AAPL` in all three sections with
distinguishable records. -/
def sampleCache : CacheState ℕ := ⟨[("AAPL", 3)], [("AAPL", 1)], [("AAPL", 2)]⟩

theorem dictGet_insert_self {V : Type} (d : List (String × V)) (k : String) (v : V) :
    dictGet (dictInsert d k v) k = some v := by
  induction d with
  | nil => simp [dictInsert, dictGet]
  | cons p d ih =>
    by_cases h : p.1 = k
    · simp [dictInsert, dictGet, h]
    · simp [dictInsert, dictGet, h, ih]

theorem dictGet_insert_ne {V : Type} (d : List (String × V)) (k k' : String) (v : V)
    (h : k' ≠ k) : dictGet (dictInsert d k' v) k = dictGet d k := by
  induction d with
  | nil => simp [dictInsert, dictGet, h]
  | cons p d ih =>
    by_cases hp : p.1 = k'
    · simp [dictInsert, dictGet, hp, h]
    · simp only [dictInsert, if_neg hp, dictGet]
      by_cases hk : p.1 = k
      · simp [hk]
      · simp [hk, ih]

theorem dictMerge_nil {V : Type} (d : List (String × V)) : dictMerge d [] = d := rfl

theorem dictMerge_cons {V : Type} (d : List (String × V)) (p : String × V)
    (u : List (String × V)) : dictMerge d (p :: u) = dictMerge (dictInsert d p.1 p.2) u := rfl

theorem dictGet_merge_not_mem {V : Type} (u d : List (String × V)) (k : String)
    (h : k ∉ dictKeys u) : dictGet (dictMerge d u) k = dictGet d k := by
  induction u generalizing d with
  | nil => rfl
  | cons p u ih =>
    simp only [dictKeys, List.map_cons, List.mem_cons, not_or] at h
    rw [dictMerge_cons, ih _ h.2, dictGet_insert_ne _ _ _ _ (fun hpk => h.1 hpk.symm)]

theorem dictGet_merge_mem {V : Type} (u d : List (String × V)) (k : String) (v : V)
    (hnd : (dictKeys u).Nodup) (hm : (k, v) ∈ u) :
    dictGet (dictMerge d u) k = some v := by
  induction u generalizing d with
  | nil => cases hm
  | cons p u ih =>
    simp only [dictKeys, List.map_cons, List.nodup_cons] at hnd
    rcases List.mem_cons.mp hm with h | h
    · subst h
      rw [dictMerge_cons]
      rw [dictGet_merge_not_mem u _ k hnd.1, dictGet_insert_self]
    · rw [dictMerge_cons]
      exact ih _ hnd.2 h

theorem dictGet_merge_append {V : Type} (d u1 u2 : List (String × V)) :
    dictMerge d (u1 ++ u2) = dictMerge (dictMerge d u1) u2 := by
  simp [dictMerge, List.foldl_append]

/-- C2. Partial-update preservation: `dictMerge` (the refresh tasks' update
loop) inserts or overwrites exactly the keys of the update mapping, leaves
every other key's record untouched, and merging an empty mapping is the
identity; concretely, `{A:1, B:2}` merged with `{A:3}` is `{A:3, B:2}` and
merged with `{}` is unchanged. -/
theorem merge_partial_update {V : Type} (d u : List (String × V)) (k : String) :
    dictMerge d [] = d ∧
    ((dictKeys u).Nodup → ∀ v : V, (k, v) ∈ u → dictGet (dictMerge d u) k = some v) ∧
    (k ∉ dictKeys u → dictGet (dictMerge d u) k = dictGet d k) ∧
    dictMerge [("A", (1 : ℕ)), ("B", 2)] [("A", 3)] = [("A", 3), ("B", 2)] ∧
    dictMerge [("A", (1 : ℕ)), ("B", 2)] [] = [("A", 1), ("B", 2)] := by
  refine ⟨rfl, fun hnd v hv => dictGet_merge_mem u d k v hnd hv,
    fun h => dictGet_merge_not_mem u d k h, by decide, rfl⟩

theorem mergeStep_inv {V : Type} (d0 : List (String × V)) (u0 : List (String × V))
    (s : MState V) (h : Relation.ReflTransGen MergeStep ⟨d0, false, u0⟩ s) :
    ∃ pre, u0 = pre ++ s.pending ∧ s.data = dictMerge d0 pre ∧
      (s.lockHeld = false → s.pending = u0 ∨ s.pending = []) := by
  induction h with
  | refl => exact ⟨[], by simp, rfl, fun _ => Or.inl rfl⟩
  | tail hr hstep ih =>
    obtain ⟨pre, hpre, hdata, _⟩ := ih
    cases hstep with
    | acquire d u =>
      exact ⟨pre, hpre, hdata, by simp⟩
    | writeKey d k v u =>
      refine ⟨pre ++ [(k, v)], ?_, ?_, by simp⟩
      · simpa using hpre
      · rw [dictGet_merge_append]
        simp only [dictMerge, List.foldl_cons, List.foldl_nil] at hdata ⊢
        rw [← hdata]
    | release d =>
      exact ⟨pre, hpre, hdata, fun _ => Or.inr rfl⟩

/-- C1. Merge atomicity: along every interleaving of one merge with snapshot
reads on the same section, any state in which the merge task does not hold
the lock — i.e. any state a lock-protected snapshot can observe — has the
section's dict equal to either the pre-merge dict or the fully merged dict,
never a mixture. -/
theorem merge_atomic_snapshot {V : Type} (d0 u0 : List (String × V)) (s : MState V)
    (h : Relation.ReflTransGen MergeStep ⟨d0, false, u0⟩ s)
    (hfree : s.lockHeld = false) :
    s.data = d0 ∨ s.data = dictMerge d0 u0 := by
  obtain ⟨pre, hpre, hdata, hlock⟩ := mergeStep_inv d0 u0 s h
  rcases hlock hfree with hp | hp
  · left
    rw [hp] at hpre
    have : pre = [] := by
      have := congrArg List.length hpre
      simp at this
      exact this
    rw [hdata, this, dictMerge_nil]
  · right
    rw [hp, List.append_nil] at hpre
    rw [hdata, ← hpre]

theorem merge_atomic_snapshot_witness :
    ([("A", 2), ("B", 3)] : List (String × ℕ)) = [("A", 1)] ∨
    ([("A", 2), ("B", 3)] : List (String × ℕ)) = dictMerge [("A", 1)] [("A", 2), ("B", 3)] := by
  have h1 : MergeStep (V := ℕ) ⟨[("A", 1)], false, [("A", 2), ("B", 3)]⟩
      ⟨[("A", 1)], true, [("A", 2), ("B", 3)]⟩ := .acquire _ _
  have h2 : MergeStep (V := ℕ) ⟨[("A", 1)], true, [("A", 2), ("B", 3)]⟩
      ⟨[("A", 2)], true, [("B", 3)]⟩ := .writeKey _ _ _ _
  have h3 : MergeStep (V := ℕ) ⟨[("A", 2)], true, [("B", 3)]⟩
      ⟨[("A", 2), ("B", 3)], true, []⟩ := .writeKey _ _ _ _
  have h4 : MergeStep (V := ℕ) ⟨[("A", 2), ("B", 3)], true, []⟩
      ⟨[("A", 2), ("B", 3)], false, []⟩ := .release _
  exact merge_atomic_snapshot [("A", 1)] [("A", 2), ("B", 3)]
    ⟨[("A", 2), ("B", 3)], false, []⟩
    (.tail (.tail (.tail (.tail .refl h1) h2) h3) h4) rfl

theorem merge_partial_update_witness :
    dictGet (dictMerge [("A", (1 : ℕ)), ("B", 2)] [("A", 3)]) "A" = some 3 ∧
    dictGet (dictMerge [("A", (1 : ℕ)), ("B", 2)] [("A", 3)]) "B" =
      dictGet [("A", (1 : ℕ)), ("B", 2)] "B" :=
  ⟨(merge_partial_update [("A", 1), ("B", 2)] [("A", 3)] "A").2.1 (by decide) 3 (by decide),
   (merge_partial_update [("A", 1), ("B", 2)] [("A", 3)] "B").2.2.1 (by decide)⟩

theorem dictGet_insert_eq_none {V : Type} (d : List (String × V)) (k : String) (v : V)
    (T : String) :
    dictGet (dictInsert d k v) T = none ↔ (k ≠ T ∧ dictGet d T = none) := by
  by_cases h : k = T
  · subst h
    simp [dictGet_insert_self]
  · simp [dictGet_insert_ne d T k v h, h]

theorem dictGet_eq_none_iff {V : Type} (d : List (String × V)) (k : String) :
    dictGet d k = none ↔ k ∉ dictKeys d := by
  induction d with
  | nil => simp [dictGet, dictKeys]
  | cons p d ih =>
    simp only [dictGet, dictKeys, List.map_cons, List.mem_cons, not_or]
    by_cases h : p.1 = k
    · simp [h]
    · rw [if_neg h, ih]
      exact ⟨fun hk => ⟨fun he => h he.symm, hk⟩, fun hk => hk.2⟩

/-- C3. Whole-call failure containment: when the upstream is unreachable,
both fetchers return the empty mapping (they cannot raise — they are total
functions), the refresh cycles treat the empty result as nothing-to-merge
and leave their sections completely unchanged, and the scheduling loop
simply continues with the remaining cycles. -/
theorem whole_call_failure_containment (envB : FetchEnv) (envS : StatsEnv)
    (ts : List String) (d : List (String × StatsRec)) (nb : NBState)
    (hB : envB.wholeFails = true) (hS : envS.wholeFails = true) :
    fetch_bulk_stock_data_sync envB ts = [] ∧
    fetch_stats_data_sync envS ts = [] ∧
    update_stats_cycle envS d = d ∧
    update_nasdaq_bse_cycle envB envB nb = nb ∧
    ∀ envs, update_stats_run (envS :: envs) d = update_stats_run envs d := by
  have h1 : fetch_bulk_stock_data_sync envB ts = [] := by
    simp [fetch_bulk_stock_data_sync, hB]
  have h2 : fetch_stats_data_sync envS ts = [] := by
    simp [fetch_stats_data_sync, hS]
  have h3 : update_stats_cycle envS d = d := by
    simp [update_stats_cycle, fetch_stats_data_sync, hS]
  refine ⟨h1, h2, h3, ?_, ?_⟩
  · simp [update_nasdaq_bse_cycle, fetch_bulk_stock_data_sync, hB]
  · intro envs
    simp [update_stats_run, h3]

theorem whole_call_failure_containment_witness :
    fetch_bulk_stock_data_sync bulkFailEnv NASDAQ_TOP_50 = [] ∧
    fetch_stats_data_sync statsFailEnv PREDEFINED_STATS_TICKERS = [] ∧
    update_stats_cycle statsFailEnv [("AAPL", sampleStatsRec)] = [("AAPL", sampleStatsRec)] := by
  have h := whole_call_failure_containment bulkFailEnv statsFailEnv NASDAQ_TOP_50
    [("AAPL", sampleStatsRec)] ⟨[], []⟩ rfl rfl
  have h' := whole_call_failure_containment bulkFailEnv statsFailEnv PREDEFINED_STATS_TICKERS
    [("AAPL", sampleStatsRec)] ⟨[], []⟩ rfl rfl
  exact ⟨h.1, h'.2.1, h.2.2.1⟩

theorem fetchBulkLoop_raises_abort (env : String → TOutcome) (x : String)
    (hx : env x = TOutcome.raises) (ts1 ts2 : List String)
    (acc : List (String × QuoteRec)) :
    fetchBulkLoop env (ts1 ++ x :: ts2) acc = fetchBulkLoop env ts1 acc := by
  induction ts1 generalizing acc with
  | nil => simp [fetchBulkLoop, hx]
  | cons t ts ih =>
    simp only [List.cons_append, fetchBulkLoop]
    cases env t with
    | missing => exact ih acc
    | raises => rfl
    | ok info hist =>
      by_cases hh : hist = []
      · simp only [if_pos hh]
        exact ih acc
      · simp only [if_neg hh]
        exact ih _

theorem fetchBulkLoop_get_none_iff (env : String → TOutcome) (ts : List String)
    (acc : List (String × QuoteRec)) (T : String)
    (hn : ∀ t ∈ ts, env t ≠ TOutcome.raises) :
    dictGet (fetchBulkLoop env ts acc) T = none ↔
      (dictGet acc T = none ∧ ∀ t ∈ ts, pyUpper t = T →
        env t = TOutcome.missing ∨ ∃ info, env t = TOutcome.ok info []) := by
  induction ts generalizing acc with
  | nil => simp [fetchBulkLoop]
  | cons t ts ih =>
    have hn' : ∀ u ∈ ts, env u ≠ TOutcome.raises :=
      fun u hu => hn u (List.mem_cons_of_mem t hu)
    have hnt : env t ≠ TOutcome.raises := hn t (List.mem_cons_self t ts)
    cases henv : env t with
    | missing =>
      simp only [fetchBulkLoop, henv]
      rw [ih acc hn']
      simp [List.forall_mem_cons, henv]
    | raises => exact absurd henv hnt
    | ok info hist =>
      by_cases hh : hist = []
      · simp only [fetchBulkLoop, henv, if_pos hh]
        rw [ih acc hn']
        subst hh
        simp only [List.forall_mem_cons, henv]
        constructor
        · rintro ⟨ha, hrest⟩
          exact ⟨ha, fun _ => Or.inr ⟨info, rfl⟩, hrest⟩
        · rintro ⟨ha, _, hrest⟩
          exact ⟨ha, hrest⟩
      · simp only [fetchBulkLoop, henv, if_neg hh]
        rw [ih _ hn', dictGet_insert_eq_none]
        simp only [List.forall_mem_cons, henv]
        constructor
        · rintro ⟨⟨hne, ha⟩, hrest⟩
          refine ⟨ha, fun hT => absurd hT hne, hrest⟩
        · rintro ⟨ha, ht, hrest⟩
          refine ⟨⟨fun hT => ?_, ha⟩, hrest⟩
          rcases ht hT with h | ⟨info', h⟩
          · exact TOutcome.noConfusion h
          · injection h with h1 h2
            exact hh h2

/-- C4 as stated is false on the code: a per-ticker exception escapes the
per-ticker loop (the `try` wraps the whole loop), so every ticker after the
failing one is dropped even though it would resolve. Here `YY` resolves to a
record when fetched alone, but fetching `["XX", "YY"]` — where `XX` raises —
returns the empty mapping, with `YY` absent. -/
theorem per_ticker_exception_counterexample :
    fetch_bulk_stock_data_sync abortEnv ["YY"] =
      [("YY", mkQuoteRecord "YY" sampleInfo sampleHist)] ∧
    fetch_bulk_stock_data_sync abortEnv ["XX", "YY"] = [] ∧
    dictGet (fetch_bulk_stock_data_sync abortEnv ["XX", "YY"]) "YY" = none :=
  ⟨rfl, rfl, rfl⟩

/-- C4 (amended). Provider-has-no-data and empty-price-series failures cause
only the affected ticker to be omitted: with no per-ticker exception in the
call, a key is absent from the result exactly when every requested ticker
mapping to it had no data or an empty series, and present otherwise. A
per-ticker exception, however, aborts the remainder of the call: the result
is exactly what was accumulated from the tickers before the failing one.
In all cases a subsequent merge leaves any previously cached record for an
omitted ticker intact. -/
theorem per_ticker_omission_amended (env : FetchEnv) (ts ts1 ts2 : List String)
    (x : String) (cached : List (String × QuoteRec)) (T : String) :
    (env.outcome x = TOutcome.raises →
      fetchBulkLoop env.outcome (ts1 ++ x :: ts2) [] = fetchBulkLoop env.outcome ts1 []) ∧
    ((∀ t ∈ ts, env.outcome t ≠ TOutcome.raises) → env.wholeFails = false →
      (dictGet (fetch_bulk_stock_data_sync env ts) T = none ↔
        ∀ t ∈ ts, pyUpper t = T →
          env.outcome t = TOutcome.missing ∨
          ∃ info, env.outcome t = TOutcome.ok info [])) ∧
    (dictGet (fetch_bulk_stock_data_sync env ts) T = none →
      dictGet (dictMerge cached (fetch_bulk_stock_data_sync env ts)) T = dictGet cached T) := by
  refine ⟨fun hx => fetchBulkLoop_raises_abort env.outcome x hx ts1 ts2 [],
    fun hn hw => ?_, fun hnone => ?_⟩
  · rw [fetch_bulk_stock_data_sync, if_neg (by simp [hw])]
    rw [fetchBulkLoop_get_none_iff env.outcome ts [] T hn]
    simp [dictGet]
  · exact dictGet_merge_not_mem _ cached T ((dictGet_eq_none_iff _ T).mp hnone)

theorem per_ticker_omission_amended_witness :
    fetchBulkLoop abortEnv.outcome (["ZZ"] ++ "XX" :: ["YY"]) [] =
      fetchBulkLoop abortEnv.outcome ["ZZ"] [] ∧
    (dictGet (fetch_bulk_stock_data_sync quoteEnv ["aapl"]) "MSFT" = none ↔
      ∀ t ∈ ["aapl"], pyUpper t = "MSFT" →
        quoteEnv.outcome t = TOutcome.missing ∨
        ∃ info, quoteEnv.outcome t = TOutcome.ok info []) ∧
    dictGet (dictMerge [("MSFT", mkQuoteRecord "MSFT" sampleInfo sampleHist)]
        (fetch_bulk_stock_data_sync quoteEnv ["aapl"])) "MSFT" =
      dictGet [("MSFT", mkQuoteRecord "MSFT" sampleInfo sampleHist)] "MSFT" := by
  have h := per_ticker_omission_amended quoteEnv ["aapl"] ["ZZ"] ["YY"] "XX"
    [("MSFT", mkQuoteRecord "MSFT" sampleInfo sampleHist)] "MSFT"
  have habort := (per_ticker_omission_amended abortEnv ["aapl"] ["ZZ"] ["YY"] "XX"
    [("MSFT", mkQuoteRecord "MSFT" sampleInfo sampleHist)] "MSFT").1 rfl
  exact ⟨habort, h.2.1 (by decide) rfl, h.2.2 rfl⟩

/-- C5 is right about what the code intends but wrong about what it does:
`raise HTTPException(status_code=404, ...)` is executed inside the same
`try` whose `except Exception as e` re-raises every exception as
`HTTPException(500, str(e))`, and FastAPI's `HTTPException` is an
`Exception` subclass. A not-found `getOne` or `getMany` on the empty cache
therefore surfaces as HTTP 500 (whose detail string wraps the intended 404),
not as HTTP 404. -/
theorem not_found_surfaces_as_500 :
    get_price_endpoint (emptyCache ℕ) "ZZZZ" =
      HttpResp.err 500 "404: Ticker ZZZZ not found." ∧
    get_multiple_prices_endpoint (emptyCache ℕ) ["ZZZZ"] =
      HttpResp.err 500 "404: No valid tickers found." ∧
    (∀ st : String, get_price_endpoint (emptyCache ℕ) "ZZZZ" ≠ HttpResp.err 404 st) := by
  refine ⟨rfl, rfl, fun st h => ?_⟩
  have : (500 : ℕ) = 404 := congrArg (fun r => match r with
    | HttpResp.err s _ => s
    | HttpResp.ok _ => 0) h
  exact absurd this (by decide)

/-- C6. `get_price` lookup semantics: the ticker is uppercased, the NASDAQ,
BSE and stats section snapshots are probed in that fixed order, and the
record of the first section containing the symbol is returned; in
particular `getOne("aapl")` and `getOne("AAPL")` agree on every cache. -/
theorem get_price_priority_and_case (V : Type) (c : CacheState V) (s : String) :
    (∀ r, dictGet c.nasdaq_top50 (pyUpper s) = some r →
      get_price_endpoint c s = HttpResp.ok r) ∧
    (∀ r, dictGet c.nasdaq_top50 (pyUpper s) = none →
      dictGet c.bse_top50 (pyUpper s) = some r →
      get_price_endpoint c s = HttpResp.ok r) ∧
    (∀ r, dictGet c.nasdaq_top50 (pyUpper s) = none →
      dictGet c.bse_top50 (pyUpper s) = none →
      dictGet c.stats (pyUpper s) = some r →
      get_price_endpoint c s = HttpResp.ok r) ∧
    get_price_endpoint c "aapl" = get_price_endpoint c "AAPL" := by
  refine ⟨fun r h1 => ?_, fun r h1 h2 => ?_, fun r h1 h2 h3 => ?_, ?_⟩
  · simp [get_price_endpoint, get_price_try_body, h1]
  · simp [get_price_endpoint, get_price_try_body, h1, h2]
  · simp [get_price_endpoint, get_price_try_body, h1, h2, h3]
  · have h : pyUpper "aapl" = pyUpper "AAPL" := by decide
    simp only [get_price_endpoint, get_price_try_body, h]

theorem get_price_priority_and_case_witness :
    get_price_endpoint sampleCache "aapl" = HttpResp.ok 1 ∧
    get_price_endpoint sampleCache "aapl" = get_price_endpoint sampleCache "AAPL" :=
  ⟨(get_price_priority_and_case ℕ sampleCache "aapl").1 1 rfl,
   (get_price_priority_and_case ℕ sampleCache "aapl").2.2.2⟩

theorem sectionMatches_eq {V : Type} (data : List (String × V)) (tickers : List String)
    (acc : List V) :
    sectionMatches data tickers acc = acc ++ tickers.filterMap (fun t => dictGet data t) := by
  induction tickers generalizing acc with
  | nil => simp [sectionMatches]
  | cons t ts ih =>
    simp only [sectionMatches, List.foldl_cons, List.filterMap_cons] at ih ⊢
    cases h : dictGet data t with
    | none => rw [ih]
    | some r =>
      rw [ih]
      simp

/-- C7. `get_multiple_prices` semantics: all symbols are uppercased, each
section snapshot is scanned once, and the result is the concatenation of the
per-section match lists in NASDAQ, BSE, stats priority order — so a symbol
present in several sections contributes one record per containing section,
with no deduplication; an empty match list raises the "No valid tickers
found." signal. -/
theorem get_multiple_prices_semantics (V : Type) (c : CacheState V)
    (ticker_list : List String) :
    (((ticker_list.map pyUpper).filterMap (fun t => dictGet c.nasdaq_top50 t) ++
      (ticker_list.map pyUpper).filterMap (fun t => dictGet c.bse_top50 t) ++
      (ticker_list.map pyUpper).filterMap (fun t => dictGet c.stats t)) ≠ [] →
      get_multiple_prices_try_body c ticker_list = Except.ok
        ((ticker_list.map pyUpper).filterMap (fun t => dictGet c.nasdaq_top50 t) ++
         (ticker_list.map pyUpper).filterMap (fun t => dictGet c.bse_top50 t) ++
         (ticker_list.map pyUpper).filterMap (fun t => dictGet c.stats t))) ∧
    (((ticker_list.map pyUpper).filterMap (fun t => dictGet c.nasdaq_top50 t) ++
      (ticker_list.map pyUpper).filterMap (fun t => dictGet c.bse_top50 t) ++
      (ticker_list.map pyUpper).filterMap (fun t => dictGet c.stats t)) = [] →
      get_multiple_prices_try_body c ticker_list =
        Except.error (PyExc.httpException 404 "No valid tickers found.")) := by
  have hb : sectionMatches c.stats (ticker_list.map pyUpper)
      (sectionMatches c.bse_top50 (ticker_list.map pyUpper)
        (sectionMatches c.nasdaq_top50 (ticker_list.map pyUpper) [])) =
      (ticker_list.map pyUpper).filterMap (fun t => dictGet c.nasdaq_top50 t) ++
      (ticker_list.map pyUpper).filterMap (fun t => dictGet c.bse_top50 t) ++
      (ticker_list.map pyUpper).filterMap (fun t => dictGet c.stats t) := by
    rw [sectionMatches_eq, sectionMatches_eq, sectionMatches_eq]
    simp [List.append_assoc]
  constructor
  · intro hne
    rw [get_multiple_prices_try_body, hb, if_neg (by simpa [List.isEmpty_iff] using hne)]
  · intro he
    rw [get_multiple_prices_try_body, hb, if_pos (by simpa [List.isEmpty_iff] using he)]

theorem get_multiple_prices_semantics_witness :
    get_multiple_prices_try_body sampleCache ["aapl"] = Except.ok [1, 2, 3] ∧
    get_multiple_prices_try_body sampleCache ["zzzz"] =
      Except.error (PyExc.httpException 404 "No valid tickers found.") := by
  have h1 := (get_multiple_prices_semantics ℕ sampleCache ["aapl"]).1 (by decide)
  have h2 := (get_multiple_prices_semantics ℕ sampleCache ["zzzz"]).2 (by decide)
  exact ⟨by rw [h1]; exact congrArg Except.ok (by decide), h2⟩

theorem fetchBulkLoop_get_some (env : String → TOutcome) (ts : List String)
    (acc : List (String × QuoteRec)) (T : String) (r : QuoteRec)
    (h : dictGet (fetchBulkLoop env ts acc) T = some r) :
    dictGet acc T = some r ∨ ∃ t ∈ ts, pyUpper t = T ∧
      ∃ info hist, env t = TOutcome.ok info hist ∧ hist ≠ [] ∧
        r = mkQuoteRecord t info hist := by
  induction ts generalizing acc with
  | nil => exact Or.inl h
  | cons t ts ih =>
    have hmem : ∀ u ∈ ts, u ∈ t :: ts := fun u hu => List.mem_cons_of_mem t hu
    cases henv : env t with
    | missing =>
      simp only [fetchBulkLoop, henv] at h
      rcases ih acc h with h0 | ⟨u, hu, rest⟩
      · exact Or.inl h0
      · exact Or.inr ⟨u, hmem u hu, rest⟩
    | raises =>
      simp only [fetchBulkLoop, henv] at h
      exact Or.inl h
    | ok info hist =>
      by_cases hh : hist = []
      · simp only [fetchBulkLoop, henv, if_pos hh] at h
        rcases ih acc h with h0 | ⟨u, hu, rest⟩
        · exact Or.inl h0
        · exact Or.inr ⟨u, hmem u hu, rest⟩
      · simp only [fetchBulkLoop, henv, if_neg hh] at h
        rcases ih _ h with h0 | ⟨u, hu, rest⟩
        · by_cases hT : pyUpper t = T
          · subst hT
            rw [dictGet_insert_self] at h0
            exact Or.inr ⟨t, List.mem_cons_self t ts, rfl, info, hist, henv, hh,
              (Option.some.injEq .. ▸ h0).symm⟩
          · rw [dictGet_insert_ne _ _ _ _ hT] at h0
            exact Or.inl h0
        · exact Or.inr ⟨u, hmem u hu, rest⟩

/-- C8. Derived-field semantics of the bulk fetcher: every record in a
bulk-fetch result has change = round2(close − open); change percent =
round2(change / open × 100) with 0 when open is 0; market cap scaled by
1e9, volume and average volume by 1e6, each rounded to 2 places; and a
source field missing from the provider info yields the `'N/A'` sentinel,
never 0. -/
theorem quote_record_derived_fields (env : FetchEnv) (ts : List String)
    (T : String) (r : QuoteRec)
    (h : dictGet (fetch_bulk_stock_data_sync env ts) T = some r) :
    ∃ t ∈ ts, ∃ info hist, env.outcome t = TOutcome.ok info hist ∧ hist ≠ [] ∧
      r.symbol = pyUpper t ∧
      r.price = pyRound2 (hist.getLastD (0, 0)).2 ∧
      r.change = pyRound2 ((hist.getLastD (0, 0)).2 - (hist.getLastD (0, 0)).1) ∧
      ((hist.getLastD (0, 0)).1 ≠ 0 →
        r.changePercent = pyRound2 (r.change / (hist.getLastD (0, 0)).1 * 100)) ∧
      ((hist.getLastD (0, 0)).1 = 0 → r.changePercent = 0) ∧
      (∀ m : ℚ, info.marketCap = some m → m ≠ 0 →
        r.marketCapB = Field.num (pyRound2 (m / 1000000000))) ∧
      (∀ m : ℚ, info.regularMarketVolume = some m → m ≠ 0 →
        r.volumeM = Field.num (pyRound2 (m / 1000000))) ∧
      (∀ m : ℚ, info.averageVolume = some m → m ≠ 0 →
        r.avgVolumeM = Field.num (pyRound2 (m / 1000000))) ∧
      (info.marketCap = none → r.marketCapB = Field.na) ∧
      (info.regularMarketVolume = none → r.volumeM = Field.na) ∧
      (info.averageVolume = none → r.avgVolumeM = Field.na) ∧
      (info.trailingPE = none → r.peRatio = Field.na) ∧
      (info.week52Change = none → r.week52ChangePct = Field.na) := by
  rw [fetch_bulk_stock_data_sync] at h
  by_cases hw : env.wholeFails
  · rw [if_pos hw] at h
    exact absurd h (by simp [dictGet])
  · rw [if_neg hw] at h
    rcases fetchBulkLoop_get_some env.outcome ts [] T r h with
      h0 | ⟨t, ht, hT, info, hist, henv, hh, hr⟩
    · exact absurd h0 (by simp [dictGet])
    subst hr
    have hcp : (mkQuoteRecord t info hist).changePercent =
        (if (hist.getLastD (0, 0)).1 ≠ 0 then
          pyRound2 ((mkQuoteRecord t info hist).change / (hist.getLastD (0, 0)).1 * 100)
         else 0) := rfl
    have hmc : (mkQuoteRecord t info hist).marketCapB =
        scaledField info.marketCap (fun v => v / 1000000000) := rfl
    have hvol : (mkQuoteRecord t info hist).volumeM =
        scaledField info.regularMarketVolume (fun v => v / 1000000) := rfl
    have havg : (mkQuoteRecord t info hist).avgVolumeM =
        scaledField info.averageVolume (fun v => v / 1000000) := rfl
    have hpe : (mkQuoteRecord t info hist).peRatio =
        scaledField info.trailingPE (fun v => v) := rfl
    have h52 : (mkQuoteRecord t info hist).week52ChangePct =
        scaledField info.week52Change (fun v => v * 100) := rfl
    refine ⟨t, ht, info, hist, henv, hh, rfl, rfl, rfl, ?_, ?_, ?_, ?_, ?_, ?_, ?_, ?_, ?_, ?_⟩
    · intro h0
      rw [hcp, if_pos h0]
    · intro h0
      rw [hcp, if_neg (fun hne => hne h0)]
    · intro m hm hm0
      rw [hmc, hm]
      simp [scaledField, hm0]
    · intro m hm hm0
      rw [hvol, hm]
      simp [scaledField, hm0]
    · intro m hm hm0
      rw [havg, hm]
      simp [scaledField, hm0]
    · intro hm
      rw [hmc, hm]
      exact rfl
    · intro hm
      rw [hvol, hm]
      exact rfl
    · intro hm
      rw [havg, hm]
      exact rfl
    · intro hm
      rw [hpe, hm]
      exact rfl
    · intro hm
      rw [h52, hm]
      exact rfl

theorem quote_record_derived_fields_witness :
    ∃ t ∈ ["aapl"], ∃ info hist,
      quoteEnv.outcome t = TOutcome.ok info hist ∧ hist ≠ [] ∧
      (mkQuoteRecord "aapl" sampleInfo sampleHist).symbol = pyUpper t := by
  obtain ⟨t, ht, info, hist, henv, hh, hsym, _⟩ :=
    quote_record_derived_fields quoteEnv ["aapl"] "AAPL"
      (mkQuoteRecord "aapl" sampleInfo sampleHist) rfl
  exact ⟨t, ht, info, hist, henv, hh, hsym⟩

theorem fetchStatsLoop_get_some (env : String → SOutcome) (ts : List String)
    (acc : List (String × StatsRec)) (T : String) (r : StatsRec)
    (h : dictGet (fetchStatsLoop env ts acc) T = some r) :
    dictGet acc T = some r ∨ ∃ t ∈ ts, pyUpper t = T ∧
      ∃ info closes, env t = SOutcome.ok info closes ∧ 2 ≤ closes.length ∧
        r = mkStatsRecord t info closes := by
  induction ts generalizing acc with
  | nil => exact Or.inl h
  | cons t ts ih =>
    have hmem : ∀ u ∈ ts, u ∈ t :: ts := fun u hu => List.mem_cons_of_mem t hu
    cases henv : env t with
    | missing =>
      simp only [fetchStatsLoop, henv] at h
      rcases ih acc h with h0 | ⟨u, hu, rest⟩
      · exact Or.inl h0
      · exact Or.inr ⟨u, hmem u hu, rest⟩
    | raises =>
      simp only [fetchStatsLoop, henv] at h
      exact Or.inl h
    | ok info closes =>
      by_cases hh : closes.length < 2
      · simp only [fetchStatsLoop, henv, if_pos hh] at h
        rcases ih acc h with h0 | ⟨u, hu, rest⟩
        · exact Or.inl h0
        · exact Or.inr ⟨u, hmem u hu, rest⟩
      · simp only [fetchStatsLoop, henv, if_neg hh] at h
        rcases ih _ h with h0 | ⟨u, hu, rest⟩
        · by_cases hT : pyUpper t = T
          · subst hT
            rw [dictGet_insert_self] at h0
            exact Or.inr ⟨t, List.mem_cons_self t ts, rfl, info, closes, henv,
              Nat.le_of_not_lt hh, (Option.some.injEq .. ▸ h0).symm⟩
          · rw [dictGet_insert_ne _ _ _ _ hT] at h0
            exact Or.inl h0
        · exact Or.inr ⟨u, hmem u hu, rest⟩

theorem fmt2_zero : fmt2 0 = "0.00" := by
  have hn : ⌊|(0 : ℚ)| * 100 + 1 / 2⌋ = 0 := by norm_num
  rw [fmt2, if_neg (lt_irrefl (0 : ℚ)), fmt2core, hn]
  decide

/-- C9. `fetch_stats_data_sync` classification: every kept record comes
from a requested ticker with at least two trading sessions of history (so
tickers with fewer sessions are omitted), and its day-over-day percent
change — relative to the prior session's close — is classified in agreement
with its sign: positive with a `"+X.XX%"` display string, negative with
`"-X.XX%"`, or unchanged with exactly `"0.00%"`. -/
theorem stats_record_classification (env : StatsEnv) (ts : List String)
    (T : String) (r : StatsRec)
    (h : dictGet (fetch_stats_data_sync env ts) T = some r) :
    ∃ t ∈ ts, ∃ info closes, env.outcome t = SOutcome.ok info closes ∧
      2 ≤ closes.length ∧
      (0 < pctChange closes → r.change = "positive" ∧
        ∃ b, r.percentage_change = "+" ++ b ++ "%") ∧
      (pctChange closes < 0 → r.change = "negative" ∧
        ∃ b, r.percentage_change = "-" ++ b ++ "%") ∧
      (pctChange closes = 0 → r.change = "same" ∧ r.percentage_change = "0.00%") := by
  rw [fetch_stats_data_sync] at h
  by_cases hw : env.wholeFails
  · rw [if_pos hw] at h
    exact absurd h (by simp [dictGet])
  · rw [if_neg hw] at h
    rcases fetchStatsLoop_get_some env.outcome ts [] T r h with
      h0 | ⟨t, ht, hT, info, closes, henv, hlen, hr⟩
    · exact absurd h0 (by simp [dictGet])
    subst hr
    have hchg : (mkStatsRecord t info closes).change =
        (if 0 < pctChange closes then "positive"
         else if pctChange closes < 0 then "negative" else "same") := rfl
    have hstr : (mkStatsRecord t info closes).percentage_change =
        (if 0 < pctChange closes then "+" ++ fmt2 (pctChange closes) ++ "%"
         else fmt2 (pctChange closes) ++ "%") := rfl
    refine ⟨t, ht, info, closes, henv, hlen, fun hp => ?_, fun hn => ?_, fun hz => ?_⟩
    · exact ⟨by rw [hchg, if_pos hp],
        fmt2 (pctChange closes), by rw [hstr, if_pos hp]⟩
    · have hnp : ¬ 0 < pctChange closes := not_lt.mpr (le_of_lt hn)
      refine ⟨by rw [hchg, if_neg hnp, if_pos hn], fmt2core (pctChange closes), ?_⟩
      rw [hstr, if_neg hnp, fmt2, if_pos hn, String.append_assoc]
    · have hnp : ¬ 0 < pctChange closes := by
        rw [hz]
        exact lt_irrefl 0
      have hnn : ¬ pctChange closes < 0 := by
        rw [hz]
        exact lt_irrefl 0
      refine ⟨by rw [hchg, if_neg hnp, if_neg hnn], ?_⟩
      rw [hstr, if_neg hnp, hz, fmt2_zero]
      decide

theorem stats_record_classification_witness :
    ∃ t ∈ ["aapl"], ∃ info closes,
      statsOkEnv.outcome t = SOutcome.ok info closes ∧ 2 ≤ closes.length := by
  obtain ⟨t, ht, info, closes, henv, hlen, _⟩ :=
    stats_record_classification statsOkEnv ["aapl"] "AAPL"
      (mkStatsRecord "aapl" sampleInfo sampleCloses) rfl
  exact ⟨t, ht, info, closes, henv, hlen⟩

/-- C10 as stated is false on the code: `startup_event` creates two tasks
for three sections — the stats section has its own task, but the NASDAQ and
BSE sections share one task (`update_nasdaq_bse_periodically`), so no task
refreshes the BSE section on its own. -/
theorem one_task_per_section_counterexample :
    startup_event_tasks.length = 2 ∧
    update_nasdaq_bse_task.sections = [SectionId.nasdaq_top50, SectionId.bse_top50] ∧
    ¬ ∃ t ∈ startup_event_tasks, t.sections = [SectionId.bse_top50] := by
  decide

/-- C10 (amended). Startup creates two independent repeating tasks for the
three sections: stats alone in one task, NASDAQ and BSE sequentially within
the other. Within the shared task a fetch failure (empty result) for either
of its two sections never prevents the other section's fetch-and-merge in
the same cycle, since both fetchers contain their failures. -/
theorem refresh_tasks_amended (envN envB : FetchEnv) (s : NBState) :
    (fetch_bulk_stock_data_sync envN NASDAQ_TOP_50 = [] →
      (update_nasdaq_bse_cycle envN envB s).nasdaq_top50 = s.nasdaq_top50 ∧
      (update_nasdaq_bse_cycle envN envB s).bse_top50 =
        (if (fetch_bulk_stock_data_sync envB BSE_TOP_50).isEmpty then s.bse_top50
         else dictMerge s.bse_top50 (fetch_bulk_stock_data_sync envB BSE_TOP_50))) ∧
    (fetch_bulk_stock_data_sync envB BSE_TOP_50 = [] →
      (update_nasdaq_bse_cycle envN envB s).bse_top50 = s.bse_top50 ∧
      (update_nasdaq_bse_cycle envN envB s).nasdaq_top50 =
        (if (fetch_bulk_stock_data_sync envN NASDAQ_TOP_50).isEmpty then s.nasdaq_top50
         else dictMerge s.nasdaq_top50 (fetch_bulk_stock_data_sync envN NASDAQ_TOP_50))) ∧
    startup_event_tasks = [update_stats_task, update_nasdaq_bse_task] ∧
    update_stats_task.sections = [SectionId.stats] ∧
    update_nasdaq_bse_task.sections = [SectionId.nasdaq_top50, SectionId.bse_top50] := by
  refine ⟨fun hN => ?_, fun hB => ?_, rfl, rfl, rfl⟩
  · simp only [update_nasdaq_bse_cycle, hN, List.isEmpty_nil, if_true]
    by_cases h2 : (fetch_bulk_stock_data_sync envB BSE_TOP_50).isEmpty
    · simp [h2]
    · simp [h2]
  · simp only [update_nasdaq_bse_cycle, hB, List.isEmpty_nil, if_true]
    by_cases h2 : (fetch_bulk_stock_data_sync envN NASDAQ_TOP_50).isEmpty
    · simp [h2]
    · simp [h2]

theorem refresh_tasks_amended_witness :
    (update_nasdaq_bse_cycle bulkFailEnv quoteEnv ⟨[], []⟩).nasdaq_top50 = [] ∧
    (update_nasdaq_bse_cycle bulkFailEnv quoteEnv ⟨[], []⟩).bse_top50 =
      (if (fetch_bulk_stock_data_sync quoteEnv BSE_TOP_50).isEmpty then []
       else dictMerge [] (fetch_bulk_stock_data_sync quoteEnv BSE_TOP_50)) :=
  (refresh_tasks_amended bulkFailEnv quoteEnv ⟨[], []⟩).1 rfl

end FinanceGPT
